import Mathlib

/-!
Verification development for the ddp2ass repository: a converter from
dandanplay danmu comment JSON to ASS subtitle documents.

The definitions below shallowly embed the Rust sources:
machine floats (`f64`) are modelled by `ℚ` (finite values; the spellings
`inf` and `NaN`, which the Rust float parser also accepts, lie outside the
number domain of this model), machine integers by `Nat`/`Int` with explicit
wrapping where the code wraps, fallible code by `Except`/`Option`, and the
out-of-bounds indexing panic of `Vec` by a distinguished outcome.

The layout engine of the repository (the files canvas.rs, danmu.rs,
drawable.rs and ass_creator.rs declared in lib.rs) is not among the
provided sources; those components are modelled from the specification and
are marked `Modelled from the spec:` in their doc comments.  Everything
else is translated from the sources in src/ (dandan.rs, cli/args.rs).
-/

deriving instance DecidableEq for Except

namespace Ddp2ass

/-! ## Models of the Rust standard library numeric parsers -/

/-- Value of a list of decimal digit characters, accumulated left to right
exactly as the standard parsers do. -/
def digitsToNat (cs : List Char) : Nat :=
  cs.foldl (fun acc c => acc * 10 + (c.toNat - 48)) 0

/-- A nonempty all-digit run parsed to its value, otherwise `none`. -/
def parseNatDigits (cs : List Char) : Option Nat :=
  if cs ≠ [] ∧ cs.all Char.isDigit then some (digitsToNat cs) else none

/-- Model of Rust `str::parse::<u8>`: an optional leading plus sign, then a
nonempty digit run whose value fits in 8 bits; anything else is an error
(`none`).  Rust rejects overflow during accumulation, which for a digit run
is equivalent to the final value exceeding 255. -/
def parseU8 (s : String) : Option Nat :=
  let run (cs : List Char) : Option Nat :=
    (parseNatDigits cs).bind (fun n => if n ≤ 255 then some n else none)
  match s.data with
  | [] => none
  | c :: rest => if c = '+' then run rest else run (c :: rest)

/-- Model of Rust `str::parse::<i32>`: an optional sign, then a nonempty
digit run whose value fits in a 32-bit two-complement integer. -/
def parseI32 (s : String) : Option Int :=
  match s.data with
  | [] => none
  | c :: rest =>
    if c = '+' then
      (parseNatDigits rest).bind (fun n => if n ≤ 2147483647 then some (n : Int) else none)
    else if c = '-' then
      (parseNatDigits rest).bind (fun n => if n ≤ 2147483648 then some (-(n : Int)) else none)
    else
      (parseNatDigits (c :: rest)).bind (fun n => if n ≤ 2147483647 then some (n : Int) else none)

/-- Split a character list at every separator recognised by `p`; always
returns at least one (possibly empty) piece, like Rust `str::split`. -/
def splitOnPred (p : Char → Bool) : List Char → List (List Char)
  | [] => [[]]
  | c :: rest =>
    let r := splitOnPred p rest
    if p c then [] :: r
    else
      match r with
      | [] => [[c]]
      | h :: t => (c :: h) :: t

/-- Mantissa of a decimal float: `digits`, `digits.digits`, `digits.` or
`.digits`, with at least one digit overall. -/
def parseMantissa (cs : List Char) : Option ℚ :=
  match splitOnPred (fun c => c == '.') cs with
  | [ip] => if ip ≠ [] ∧ ip.all Char.isDigit then some ((digitsToNat ip : ℚ)) else none
  | [ip, fp] =>
    if (ip ≠ [] ∨ fp ≠ []) ∧ ip.all Char.isDigit ∧ fp.all Char.isDigit then
      some ((digitsToNat ip : ℚ) + (digitsToNat fp : ℚ) / (10 : ℚ) ^ fp.length)
    else none
  | _ => none

/-- Signed decimal exponent. -/
def parseExponent (cs : List Char) : Option Int :=
  match cs with
  | [] => none
  | c :: rest =>
    if c = '+' then (parseNatDigits rest).map (fun n => (n : Int))
    else if c = '-' then (parseNatDigits rest).map (fun n => -(n : Int))
    else (parseNatDigits (c :: rest)).map (fun n => (n : Int))

/-- Model of Rust `str::parse::<f64>` restricted to finite decimal forms:
an optional sign, a decimal mantissa and an optional decimal exponent.
The result is exact (`ℚ`), abstracting from binary rounding. -/
def parseF64 (s : String) : Option ℚ :=
  let signed : ℚ × List Char :=
    match s.data with
    | [] => (1, [])
    | c :: rest => if c = '+' then (1, rest) else if c = '-' then (-1, rest) else (1, c :: rest)
  match splitOnPred (fun c => c == 'e' || c == 'E') signed.2 with
  | [m] => (parseMantissa m).map (fun v => signed.1 * v)
  | [m, e] =>
    (parseMantissa m).bind (fun v =>
      (parseExponent e).map (fun x => signed.1 * v * (10 : ℚ) ^ x))
  | _ => none

/-! ## Data model -/

/-- Modelled from the spec: the three display categories of a comment
(danmu.rs is not among the provided sources; the variant names follow
their uses in dandan.rs). -/
inductive DanmuType where
  | Float
  | Bottom
  | Top
deriving DecidableEq, Repr

/-- A parsed comment, with the fields dandan.rs constructs: text content,
timestamp in seconds, font size override, display category and RGB color. -/
structure Danmu where
  content : String
  timeline_s : ℚ
  fontsize : Nat
  type : DanmuType
  rgb : Nat × Nat × Nat
deriving DecidableEq

/-- The conversion configuration, with the fields Args.canvas_config of
cli/args.rs populates. -/
structure CanvasConfig where
  width : Nat
  height : Nat
  font : String
  font_size : Nat
  width_ratio : ℚ
  horizontal_gap : ℚ
  duration : ℚ
  lane_size : Nat
  float_percentage : ℚ
  opacity : Nat
  bottom_percentage : ℚ
  outline : ℚ
  bold : Nat
  time_offset : ℚ
deriving DecidableEq

/-! ## Position parsing (dandan.rs) -/

/-- The parsed form of the position string of a comment (dandan.rs). -/
structure Position where
  timestamp_s : ℚ
  mode : DanmuType
  color : Nat × Nat × Nat
  user_id : String
deriving DecidableEq

/-- Model of `Position::parse_mode` (dandan.rs): parse the mode field as a
`u8` and map 1 to Float, 4 to Bottom and 5 to Top; every other value is an
error.  The Rust match on integer literals is rendered as an if chain. -/
def Position.parse_mode (mode : String) : Except String DanmuType :=
  match parseU8 mode with
  | none => Except.error "invalid digit found in string"
  | some v =>
    if v = 1 then Except.ok DanmuType.Float
    else if v = 4 then Except.ok DanmuType.Bottom
    else if v = 5 then Except.ok DanmuType.Top
    else Except.error ("不支持的弹幕类型 " ++ toString v)

/-- Rust `as u8` on an `i32`: keep the low 8 bits of the two-complement
representation, which is the mathematical residue modulo 256. -/
def u8OfInt (x : Int) : Nat := (x % 256).toNat

/-- Model of `Position::parse_color` (dandan.rs): parse the color field as
an `i32` and split it into bytes with truncating division and remainder
(`Int.tdiv`/`Int.tmod` are the Rust `/` and `%`), each narrowed by `as u8`. -/
def Position.parse_color (s : String) : Except String (Nat × Nat × Nat) :=
  match parseI32 s with
  | none => Except.error "invalid digit found in string"
  | some value =>
    let b := u8OfInt (value.tmod 256)
    let g := u8OfInt ((value.tdiv 256).tmod 256)
    let r := u8OfInt (value.tdiv (256 * 256))
    Except.ok (r, g, b)

/-- Rust `str::split(",")` collected to a vector: the comma separated
fields of a string. -/
def commaFields (s : String) : List String :=
  (splitOnPred (fun c => c == ',') s.data).map String.mk

/-- Model of `Position::parse` (dandan.rs): split the position string on
commas and read fields 0 to 3.  Rust indexes `split[0] .. split[3]`
eagerly, so fewer than 4 pieces is an out-of-bounds panic, modelled by
`none`; with at least 4 pieces the fields are parsed in source order
(color first, then timestamp, then mode) and errors propagate. -/
def Position.parse (s : String) : Option (Except String Position) :=
  match commaFields s with
  | t :: m :: c :: u :: _ =>
    some (do
      let color ← Position.parse_color c
      let ts ←
        match parseF64 t with
        | some v => Except.ok v
        | none => Except.error "invalid float literal"
      let mode ← Position.parse_mode m
      Except.ok { timestamp_s := ts, mode := mode, color := color, user_id := u })
  | _ => none

/-! ## Command line arguments (cli/args.rs) -/

/-- The simplified/traditional conversion switch (cli/args.rs). -/
inductive SimplifiedOrTraditional where
  | Simplified
  | Traditional
  | Original
deriving DecidableEq

/-- The command line arguments of cli/args.rs, with paths modelled as
strings. -/
structure Args where
  input : String
  width : Nat
  height : Nat
  simplified_or_traditional : SimplifiedOrTraditional
  merge_built_in_interactive : Bool
  merge_built_in : String
  font : String
  font_size : Nat
  lane_size : Nat
  width_ratio : ℚ
  horizontal_gap : ℚ
  duration : ℚ
  float_percentage : ℚ
  alpha : ℚ
  force : Bool
  change_match : Bool
  denylist : Option String
  pause : Bool
  outline : ℚ
  bold : Bool
  time_offset : ℚ
deriving DecidableEq

/-- Rust `as u8` on an `f64`: truncate toward zero and saturate to 0..255. -/
def f64AsU8 (x : ℚ) : Nat :=
  if x < 0 then 0 else min 255 x.floor.toNat

/-- Model of `Args::canvas_config` (cli/args.rs). -/
def Args.canvas_config (a : Args) : CanvasConfig :=
  { width := a.width
    height := a.height
    font := a.font
    font_size := a.font_size
    width_ratio := a.width_ratio
    horizontal_gap := a.horizontal_gap
    duration := a.duration
    lane_size := a.lane_size
    float_percentage := a.float_percentage
    opacity := f64AsU8 ((1 - a.alpha) * 255)
    bottom_percentage := 3 / 10
    outline := a.outline
    bold := if a.bold then 1 else 0
    time_offset := a.time_offset }

/-! ## Text width estimator

Modelled from the spec: canvas.rs and danmu.rs are not among the provided
sources.  Each character is classified as full width (East Asian wide code
point ranges) or half width; a full width character contributes
`font_size * width_ratio` pixels and a half width character 0.65 of that. -/

/-- Modelled from the spec: full width classification over East Asian wide
code point ranges (CJK ideographs, fullwidth punctuation and similar). -/
def isFullWidth (c : Char) : Bool :=
  let n := c.toNat
  (0x1100 ≤ n && n ≤ 0x115F) || (0x2E80 ≤ n && n ≤ 0x303E) ||
  (0x3041 ≤ n && n ≤ 0x33FF) || (0x3400 ≤ n && n ≤ 0x4DBF) ||
  (0x4E00 ≤ n && n ≤ 0x9FFF) || (0xA000 ≤ n && n ≤ 0xA4CF) ||
  (0xAC00 ≤ n && n ≤ 0xD7A3) || (0xF900 ≤ n && n ≤ 0xFAFF) ||
  (0xFE30 ≤ n && n ≤ 0xFE4F) || (0xFF00 ≤ n && n ≤ 0xFF60) ||
  (0xFFE0 ≤ n && n ≤ 0xFFE6)

/-- Modelled from the spec: `estimate_width(text, font_size, width_ratio)`
as the sum of per-character widths. -/
def estimate_width (text : String) (font_size : Nat) (width_ratio : ℚ) : ℚ :=
  let unit : ℚ := (font_size : ℚ) * width_ratio
  (text.data.map (fun c => if isFullWidth c then unit else (13 / 20) * unit)).foldl (· + ·) 0

/-! ## Drawables and the lane scheduler

Modelled from the spec: canvas.rs and drawable.rs are not among the
provided sources.  The scheduler keeps, per category, one lane pool of a
size derived from the configuration; each lane remembers only its latest
occupant. -/

/-- Modelled from the spec: the motion of a drawable, either a linear move
between two points or a static position. -/
inductive DrawEffect where
  | move (x0 y0 x1 y1 : Int)
  | pos (x y : Int)
deriving DecidableEq

/-- Modelled from the spec: the fully resolved placement record of one
comment. -/
structure Drawable where
  text : String
  start_s : ℚ
  end_s : ℚ
  style : String
  effect : DrawEffect
  rgb : Nat × Nat × Nat
deriving DecidableEq

/-- Modelled from the spec: the occupancy record of a scrolling lane; only
the latest occupant matters (its start time and estimated width). -/
structure FloatLaneOcc where
  start_s : ℚ
  width : ℚ
deriving DecidableEq

/-- Modelled from the spec: the mutable lane state of one conversion run. -/
structure Canvas where
  config : CanvasConfig
  float_lanes : List (Option FloatLaneOcc)
  top_lanes : List (Option ℚ)
  bottom_lanes : List (Option ℚ)

/-- Lane budget of the scrolling pool:
`floor(height * float_percentage / lane_size)`. -/
def CanvasConfig.floatLaneCount (c : CanvasConfig) : Nat :=
  (((c.height : ℚ) * c.float_percentage) / (c.lane_size : ℚ)).floor.toNat

/-- Lane budget of the bottom fixed pool:
`floor(height * bottom_percentage / lane_size)`. -/
def CanvasConfig.bottomLaneCount (c : CanvasConfig) : Nat :=
  (((c.height : ℚ) * c.bottom_percentage) / (c.lane_size : ℚ)).floor.toNat

/-- Lane budget of the top fixed pool: the remaining vertical budget not
claimed by the other two pools, with the shared sizing formula. -/
def CanvasConfig.topLaneCount (c : CanvasConfig) : Nat :=
  (((c.height : ℚ) * (1 - c.float_percentage - c.bottom_percentage)) / (c.lane_size : ℚ)).floor.toNat

/-- Modelled from the spec: `canvas_config.canvas()` creates the empty lane
pools for one conversion run. -/
def CanvasConfig.canvas (c : CanvasConfig) : Canvas :=
  { config := c
    float_lanes := List.replicate c.floatLaneCount none
    top_lanes := List.replicate c.topLaneCount none
    bottom_lanes := List.replicate c.bottomLaneCount none }

/-- Assign the new occupant to the lowest indexed lane accepted by
`accept`; returns the lane index and the updated pool, or `none` when no
lane qualifies (the comment is dropped). -/
def assignLane {τ : Type} (accept : Option τ → Bool) (occ : τ) :
    List (Option τ) → Option (Nat × List (Option τ))
  | [] => none
  | l :: rest =>
    if accept l then some (0, some occ :: rest)
    else (assignLane accept occ rest).map (fun p => (p.1 + 1, l :: p.2))

/-- Modelled from the spec: acceptance test of a scrolling lane.  A lane
with latest occupant of start `t1` and width `w1` accepts a newcomer of
start `t2` and width `w2` when the occupant has already left the screen,
or when throughout the shared visible window the newcomer stays at least
`horizontal_gap` behind; both positions being linear in time this is
checked at the start of the overlap (entry gap) and at the moment the
occupant exits (catch-up gap). -/
def floatAccepts (cfg : CanvasConfig) (t2 w2 : ℚ) : Option FloatLaneOcc → Bool
  | none => true
  | some occ =>
    let W : ℚ := (cfg.width : ℚ)
    let t1 := occ.start_s
    let w1 := occ.width
    if t1 + cfg.duration ≤ t2 then true
    else
      let v1 := (W + w1) / cfg.duration
      let v2 := (W + w2) / cfg.duration
      decide (cfg.horizontal_gap ≤ v1 * (t2 - t1) - w1) &&
      decide (cfg.horizontal_gap ≤ W - v2 * (t1 + cfg.duration - t2))

/-- Modelled from the spec: acceptance test of a fixed lane, which accepts
once its latest occupant has expired. -/
def fixedAccepts (t : ℚ) : Option ℚ → Bool
  | none => true
  | some endT => decide (endT ≤ t)

/-- Modelled from the spec: place a scrolling comment; it enters at the
right edge and exits fully off screen at minus its own (ceiled) width, on
the lane row `index * lane_size`. -/
def Canvas.drawFloat (c : Canvas) (d : Danmu) (t : ℚ) : Canvas × Option Drawable :=
  let w := estimate_width d.content c.config.font_size c.config.width_ratio
  match assignLane (floatAccepts c.config t w) { start_s := t, width := w } c.float_lanes with
  | none => (c, none)
  | some (i, lanes) =>
    let y : Int := (i : Int) * (c.config.lane_size : Int)
    ({ c with float_lanes := lanes },
     some { text := d.content
            start_s := t
            end_s := t + c.config.duration
            style := "Float"
            effect := DrawEffect.move (c.config.width : Int) y (-w.ceil) y
            rgb := d.rgb })

/-- Modelled from the spec: place a top fixed comment at the horizontal
center, lane rows counting downward from the top edge. -/
def Canvas.drawTop (c : Canvas) (d : Danmu) (t : ℚ) : Canvas × Option Drawable :=
  match assignLane (fixedAccepts t) (t + c.config.duration) c.top_lanes with
  | none => (c, none)
  | some (i, lanes) =>
    ({ c with top_lanes := lanes },
     some { text := d.content
            start_s := t
            end_s := t + c.config.duration
            style := "Top"
            effect := DrawEffect.pos ((c.config.width : Int) / 2) ((i : Int) * (c.config.lane_size : Int))
            rgb := d.rgb })

/-- Modelled from the spec: place a bottom fixed comment at the horizontal
center, lane rows counting upward from the bottom edge. -/
def Canvas.drawBottom (c : Canvas) (d : Danmu) (t : ℚ) : Canvas × Option Drawable :=
  match assignLane (fixedAccepts t) (t + c.config.duration) c.bottom_lanes with
  | none => (c, none)
  | some (i, lanes) =>
    ({ c with bottom_lanes := lanes },
     some { text := d.content
            start_s := t
            end_s := t + c.config.duration
            style := "Bottom"
            effect := DrawEffect.pos ((c.config.width : Int) / 2)
              ((c.config.height : Int) - ((i : Int) + 1) * (c.config.lane_size : Int))
            rgb := d.rgb })

/-- Modelled from the spec: `canvas.draw(danmu)` applies the global time
offset and dispatches on the display category; the result is the updated
lane state and the drawable, or `none` when the comment is dropped. -/
def Canvas.draw (c : Canvas) (d : Danmu) : Canvas × Option Drawable :=
  let t := d.timeline_s + c.config.time_offset
  match d.type with
  | DanmuType.Float => c.drawFloat d t
  | DanmuType.Top => c.drawTop d t
  | DanmuType.Bottom => c.drawBottom d t

/-! ## Subtitle document serializer and merger

Modelled from the spec: ass_creator.rs is not among the provided sources.
The document is a byte buffer: a fixed preamble keyed by the
configuration, then one event line per written drawable, then the merged
external event lines. -/

/-- Hexadecimal digit character, lowercase. -/
def hexDigitChar (n : Nat) : Char :=
  if n < 10 then Char.ofNat (48 + n) else Char.ofNat (87 + n)

/-- Two lowercase hexadecimal digits of a byte. -/
def hexByte (n : Nat) : String :=
  String.mk [hexDigitChar (n / 16 % 16), hexDigitChar (n % 16)]

/-- Left pad to two decimal digits. -/
def pad2 (n : Nat) : String :=
  if n < 10 then "0" ++ toString n else toString n

/-- Modelled from the spec: timestamps are serialized as `H:MM:SS.CC`
(centiseconds, truncated). -/
def formatAssTime (t : ℚ) : String :=
  let cs := (t * 100).floor.toNat
  toString (cs / 360000) ++ ":" ++ pad2 (cs / 6000 % 60) ++ ":" ++
    pad2 (cs / 100 % 60) ++ "." ++ pad2 (cs % 100)

/-- Modelled from the spec: the inline directive of an event line, either a
move directive with four coordinates or a static position directive. -/
def DrawEffect.render : DrawEffect → String
  | DrawEffect.move x0 y0 x1 y1 =>
    "\\move(" ++ toString x0 ++ ", " ++ toString y0 ++ ", " ++ toString x1 ++ ", " ++ toString y1 ++ ")"
  | DrawEffect.pos x y =>
    "\\pos(" ++ toString x ++ ", " ++ toString y ++ ")"

/-- Modelled from the spec: the fixed metadata preamble, one style line per
category (identical styling apart from the name) and the events header. -/
def assHeader (title : String) (cfg : CanvasConfig) : String :=
  let style (name : String) : String :=
    "Style: " ++ name ++ "," ++ cfg.font ++ "," ++ toString cfg.font_size ++
      ",&H" ++ hexByte cfg.opacity ++ "FFFFFF,&H00FFFFFF,&H" ++ hexByte cfg.opacity ++
      "000000,&H00000000," ++ toString cfg.bold ++ ", 0, 0, 0, 100, 100, 0.00, 0.00, 1, " ++
      toString cfg.outline.floor ++ ", 0, 7, 0, 0, 0, 1\n"
  "[Script Info]\nTitle: " ++ title ++ "\nScriptType: v4.00+\nPlayResX: " ++
    toString cfg.width ++ "\nPlayResY: " ++ toString cfg.height ++
    "\nAspect Ratio: " ++ toString cfg.width ++ ":" ++ toString cfg.height ++
    "\nCollisions: Normal\nWrapStyle: 2\nScaledBorderAndShadow: yes\nYCbCr Matrix: TV.601\n\n\n" ++
    "[V4+ Styles]\nFormat: Name, Fontname, Fontsize, PrimaryColour, SecondaryColour, OutlineColour, BackColour, Bold, Italic, Underline, StrikeOut, ScaleX, ScaleY, Spacing, Angle, BorderStyle, Outline, Shadow, Alignment, MarginL, MarginR, MarginV, Encoding\n" ++
    style "Float" ++ style "Bottom" ++ style "Top" ++
    "\n[Events]\nFormat: Layer, Start, End, Style, Name, MarginL, MarginR, MarginV, Effect, Text\n"

/-- Modelled from the spec: the subtitle document under construction. -/
structure AssCreator where
  buf : String
deriving DecidableEq

/-- Modelled from the spec: `AssCreator::new(title, config)` starts the
buffer with the preamble. -/
def AssCreator.new (title : String) (cfg : CanvasConfig) : AssCreator :=
  { buf := assHeader title cfg }

/-- Modelled from the spec: `write(drawable)` appends exactly one formatted
event line. -/
def AssCreator.write (a : AssCreator) (d : Drawable) : AssCreator :=
  { buf := a.buf ++ "Dialogue: 2," ++ formatAssTime d.start_s ++ "," ++ formatAssTime d.end_s ++
      "," ++ d.style ++ ",,0,0,0,,\x7b" ++ DrawEffect.render d.effect ++ "\\c&H" ++
      hexByte d.rgb.2.2 ++ hexByte d.rgb.2.1 ++ hexByte d.rgb.1 ++ "&\x7d" ++ d.text ++ "\n" }

/-- Modelled from the spec: the event lines of an external document are the
`Dialogue:` lines after the `[Events]` section header; everything else is
ignored. -/
def extractEventLines (s : String) : List String :=
  (((splitOnPred (fun c => c == Char.ofNat 10) s.data).map String.mk).dropWhile
      (fun l => l ≠ "[Events]")).filter
    (fun l => "Dialogue:".isPrefixOf l)

/-- Modelled from the spec: `merge(other)` appends every event line found
in the external document, in order, to the current document. -/
def AssCreator.merge (a : AssCreator) (other : String) : AssCreator :=
  { buf := a.buf ++ String.join ((extractEventLines other).map (fun l => l ++ "\n")) }

/-! ## The conversion pipeline (dandan.rs) -/

/-- One comment record of the downloaded JSON (dandan.rs): id, position
string and text. -/
structure CommentItem where
  cid : Nat
  p : String
  m : String
deriving DecidableEq

/-- The downloaded comments JSON (dandan.rs); the optional metadata fields
play no role in the conversion. -/
structure CommentsJson where
  count : Int
  episode_id : Option Int
  anime_id : Option Int
  anime_title : Option String
  episode_title : Option String
  comments : List CommentItem
deriving DecidableEq

/-- The observable outcome of running a Rust function that may panic. -/
inductive ROut (α : Type) where
  | panics
  | error (msg : String)
  | ok (val : α)
deriving DecidableEq

/-- Map over the success value of an outcome. -/
def ROut.map {α β : Type} (f : α → β) : ROut α → ROut β
  | ROut.panics => ROut.panics
  | ROut.error e => ROut.error e
  | ROut.ok v => ROut.ok (f v)

/-- Substring test on character lists, the model of Rust
`str::contains::<&str>` (the empty needle always matches). -/
def containsSub (hay needle : List Char) : Bool :=
  needle.isPrefixOf hay ||
    match hay with
    | [] => false
    | _ :: t => containsSub t needle

/-- The denylist test of json_to_ass (dandan.rs): some keyword of the
denylist occurs in the comment text.  The `HashSet` is modelled as a list
in one iteration order; `any` makes the result order independent. -/
def denylistMatches (denylist : List String) (content : String) : Bool :=
  denylist.any (fun s => containsSub content.data s.data)

/-- The comment parsing loop of json_to_ass (dandan.rs): positions are
parsed strictly in order, a panic or an error on any comment aborting the
loop at once; on success every comment becomes a `Danmu` with font size 0. -/
def parseComments : List CommentItem → ROut (List Danmu)
  | [] => ROut.ok []
  | c :: rest =>
    match Position.parse c.p with
    | none => ROut.panics
    | some (Except.error e) => ROut.error e
    | some (Except.ok pos) =>
      match parseComments rest with
      | ROut.panics => ROut.panics
      | ROut.error e => ROut.error e
      | ROut.ok ds =>
        ROut.ok ({ content := c.m
                   timeline_s := pos.timestamp_s
                   fontsize := 0
                   type := pos.mode
                   rgb := pos.color } :: ds)

/-- The comparison json_to_ass sorts with (dandan.rs):
`partial_cmp` on timestamps with incomparable pairs treated as equal;
on the NaN free domain of this model it is the total order on `ℚ`. -/
def danmuLE (a b : Danmu) : Bool :=
  decide (a.timeline_s ≤ b.timeline_s)

/-- The sort performed by json_to_ass (dandan.rs): Rust `sort_by` is a
stable sort, embedded as the stable `List.mergeSort`. -/
def sortDanmus (l : List Danmu) : List Danmu :=
  l.mergeSort danmuLE

/-- The skip condition of the drawing loop (dandan.rs): with no denylist
nothing is skipped, otherwise the denylist test decides. -/
def denylisted (denylist : Option (List String)) (content : String) : Bool :=
  match denylist with
  | some dl => denylistMatches dl content
  | none => false

/-- The drawing loop of json_to_ass (dandan.rs): comments matching the
denylist are skipped; the rest are drawn, each placed drawable being
written to the document and counted. -/
def processDanmus (denylist : Option (List String)) :
    Canvas → AssCreator → Nat → List Danmu → Canvas × AssCreator × Nat
  | canvas, ass, count, [] => (canvas, ass, count)
  | canvas, ass, count, d :: rest =>
    if denylisted denylist d.content then
      processDanmus denylist canvas ass count rest
    else
      match canvas.draw d with
      | (canvas2, some drawable) =>
        processDanmus denylist canvas2 (ass.write drawable) (count + 1) rest
      | (canvas2, none) =>
        processDanmus denylist canvas2 ass count rest

/-- Model of `Dandan::json_to_ass` (dandan.rs): parse every position
(failures are fatal for the whole file), sort stably by timestamp, filter
by the denylist while drawing and writing, then merge the optional
external subtitle text; the result is the conversion count and the
document text. -/
def jsonToAss (input_json : CommentsJson) (built_in_ass : Option String) (title : String)
    (denylist : Option (List String)) (canvas_config : CanvasConfig) : ROut (Nat × String) :=
  let ass := AssCreator.new title canvas_config
  match parseComments input_json.comments with
  | ROut.panics => ROut.panics
  | ROut.error e => ROut.error e
  | ROut.ok danmus =>
    let sorted := sortDanmus danmus
    let res := processDanmus denylist canvas_config.canvas ass 0 sorted
    let merged :=
      match built_in_ass with
      | some b => res.2.1.merge b
      | none => res.2.1
    ROut.ok (res.2.2, merged.buf)

/-- Claim C7 reference model, following the words of the spec: the
denylist filtering is performed by the caller, on the sorted comment
list, before anything is handed to the layout core, which then runs with
no denylist at all. -/
def jsonToAssPrefiltered (input_json : CommentsJson) (built_in_ass : Option String)
    (title : String) (denylist : List String) (canvas_config : CanvasConfig) :
    ROut (Nat × String) :=
  let ass := AssCreator.new title canvas_config
  match parseComments input_json.comments with
  | ROut.panics => ROut.panics
  | ROut.error e => ROut.error e
  | ROut.ok danmus =>
    let handed := (sortDanmus danmus).filter (fun d => !denylistMatches denylist d.content)
    let res := processDanmus none canvas_config.canvas ass 0 handed
    let merged :=
      match built_in_ass with
      | some b => res.2.1.merge b
      | none => res.2.1
    ROut.ok (res.2.2, merged.buf)

/-! ## Shared helper lemmas -/

/-- A position string is parsed without panicking exactly when its comma
split has at least 4 fields. -/
theorem position_parse_none_iff (s : String) :
    Position.parse s = none ↔ (commaFields s).length < 4 := by
  unfold Position.parse
  cases commaFields s with
  | nil => simp
  | cons t r1 =>
    cases r1 with
    | nil => simp
    | cons m r2 =>
      cases r2 with
      | nil => simp
      | cons c r3 =>
        cases r3 with
        | nil => simp
        | cons u r4 => simp

/-- The json_to_ass comparator is transitive. -/
theorem danmuLE_trans : ∀ (a b c : Danmu), danmuLE a b → danmuLE b c → danmuLE a c := by
  intro a b c hab hbc
  simp only [danmuLE, decide_eq_true_eq] at *
  exact le_trans hab hbc

/-- The json_to_ass comparator is total. -/
theorem danmuLE_total : ∀ (a b : Danmu), danmuLE a b || danmuLE b a := by
  intro a b
  simp only [danmuLE, Bool.or_eq_true, decide_eq_true_eq]
  exact le_total _ _

/-! ## Claim theorems -/

/-- Claim C3: `Position::parse` applied to a position string whose comma
split yields fewer than 4 fields (for example "0.0,1,255") terminates by
an out-of-bounds indexing panic rather than by returning an error value;
it returns (Ok or Err) without panicking exactly when the split yields at
least 4 fields. -/
theorem position_parse_short_split_panics :
    Position.parse "0.0,1,255" = none ∧
    ∀ s : String, Position.parse s = none ↔ (commaFields s).length < 4 :=
  ⟨by decide, position_parse_none_iff⟩

/-- Claim C6: `Position::parse_mode` returns an error exactly when the mode
string does not parse as an unsigned 8-bit integer or parses to a value
outside 1, 4, 5; the accepted values map 1 to the scrolling category, 4 to
bottom-fixed and 5 to top-fixed. -/
theorem parse_mode_characterisation (s : String) :
    (Position.parse_mode s = Except.ok DanmuType.Float ↔ parseU8 s = some 1) ∧
    (Position.parse_mode s = Except.ok DanmuType.Bottom ↔ parseU8 s = some 4) ∧
    (Position.parse_mode s = Except.ok DanmuType.Top ↔ parseU8 s = some 5) ∧
    ((∃ e, Position.parse_mode s = Except.error e) ↔
      parseU8 s = none ∨ ∃ v, parseU8 s = some v ∧ v ≠ 1 ∧ v ≠ 4 ∧ v ≠ 5) := by
  unfold Position.parse_mode
  cases h : parseU8 s with
  | none => simp
  | some v =>
    by_cases h1 : v = 1
    · subst h1
      simp
    · by_cases h4 : v = 4
      · subst h4
        simp
      · by_cases h5 : v = 5
        · subst h5
          simp
        · simp [h1, h4, h5]

/-- Claim C9: whatever the arguments, `Args::canvas_config` fixes the
bottom-fixed height fraction at 0.3; it is not configurable. -/
theorem canvas_config_bottom_percentage (a : Args) :
    (Args.canvas_config a).bottom_percentage = 3 / 10 := rfl

/-- Claim C10: on the decimal string of a value v that fits in an `i32`,
`Position::parse_color` returns the byte triple
(v / 65536 mod 256, v / 256 mod 256, v mod 256); below 2^24 the red
component is exactly v / 65536, while from 2^24 up to `i32::MAX` it wraps
modulo 256 instead of being rejected. -/
theorem parse_color_decimal (cs : List Char) (v : Nat)
    (h0 : cs ≠ []) (h1 : cs.all Char.isDigit = true) (h2 : digitsToNat cs = v)
    (h3 : v ≤ 2147483647) :
    Position.parse_color (String.mk cs) = Except.ok (v / 65536 % 256, v / 256 % 256, v % 256) ∧
    (v < 16777216 → v / 65536 % 256 = v / 65536) := by
  constructor
  · have hp : parseI32 (String.mk cs) = some (v : Int) := by
      unfold parseI32
      cases cs with
      | nil => exact absurd rfl h0
      | cons c rest =>
        have hcd : c.isDigit = true := by
          have := List.all_eq_true.mp h1 c (List.mem_cons_self c rest)
          exact this
        have hplus : ¬ c = '+' := by
          intro hc
          subst hc
          exact absurd hcd (by decide)
        have hminus : ¬ c = '-' := by
          intro hc
          subst hc
          exact absurd hcd (by decide)
        simp only [String.mk]
        rw [if_neg hplus, if_neg hminus]
        unfold parseNatDigits
        rw [if_pos ⟨List.cons_ne_nil c rest, h1⟩, h2]
        simp [h3]
    unfold Position.parse_color
    rw [hp]
    have hb : u8OfInt ((v : Int).tmod 256) = v % 256 := by
      have : ((v : Int).tmod 256) = ((v % 256 : Nat) : Int) := (Int.ofNat_tmod v 256).symm
      rw [this]
      unfold u8OfInt
      omega
    have hg : u8OfInt (((v : Int).tdiv 256).tmod 256) = v / 256 % 256 := by
      have hd : ((v : Int).tdiv 256) = ((v / 256 : Nat) : Int) := (Int.ofNat_tdiv v 256).symm
      rw [hd]
      have : (((v / 256 : Nat) : Int).tmod 256) = ((v / 256 % 256 : Nat) : Int) :=
        (Int.ofNat_tmod (v / 256) 256).symm
      rw [this]
      unfold u8OfInt
      omega
    have hr : u8OfInt ((v : Int).tdiv (256 * 256)) = v / 65536 % 256 := by
      have hd : ((v : Int).tdiv (256 * 256)) = ((v / 65536 : Nat) : Int) :=
        (Int.ofNat_tdiv v 65536).symm
      rw [hd]
      unfold u8OfInt
      omega
    dsimp only
    rw [hb, hg, hr]
  · intro hlt
    have : v / 65536 < 256 := by omega
    exact Nat.mod_eq_of_lt this

/-- Claim C4: the sort json_to_ass performs orders the comments by
non-decreasing timestamp and is stable: for every timestamp value, the
comments carrying it appear in the sorted list exactly in their input
order (NaN free timestamps are the whole domain of this model). -/
theorem sortDanmus_sorted_stable (l : List Danmu) :
    (sortDanmus l).Pairwise (fun a b => a.timeline_s ≤ b.timeline_s) ∧
    ∀ q : ℚ, (sortDanmus l).filter (fun d => decide (d.timeline_s = q)) =
      l.filter (fun d => decide (d.timeline_s = q)) := by
  unfold sortDanmus
  constructor
  · have h := List.sorted_mergeSort danmuLE_trans danmuLE_total l
    exact h.imp (fun hab => by simpa [danmuLE] using hab)
  · intro q
    have hsub : List.Sublist (l.filter (fun d => decide (d.timeline_s = q))) l :=
      List.filter_sublist l
    have hpair : (l.filter (fun d => decide (d.timeline_s = q))).Pairwise
        (fun a b => danmuLE a b = true) := by
      apply List.pairwise_of_forall_mem_list
      intro a ha b hb
      have ha2 := (List.mem_filter.mp ha).2
      have hb2 := (List.mem_filter.mp hb).2
      simp only [decide_eq_true_eq] at ha2 hb2
      simp [danmuLE, ha2, hb2]
    have h1 : List.Sublist (l.filter (fun d => decide (d.timeline_s = q)))
        (l.mergeSort danmuLE) :=
      List.sublist_mergeSort danmuLE_trans danmuLE_total hpair hsub
    have h2 := h1.filter (fun d => decide (d.timeline_s = q))
    rw [List.filter_filter] at h2
    have h2s : List.Sublist (l.filter (fun d => decide (d.timeline_s = q)))
        ((l.mergeSort danmuLE).filter (fun d => decide (d.timeline_s = q))) := by
      simpa [Bool.and_self] using h2
    have hperm : List.Perm ((l.mergeSort danmuLE).filter (fun d => decide (d.timeline_s = q)))
        (l.filter (fun d => decide (d.timeline_s = q))) :=
      (List.mergeSort_perm l danmuLE).filter _
    exact (h2s.eq_of_length hperm.length_eq.symm).symm

/-- Two denylists with the same elements match the same contents. -/
theorem denylisted_perm {d1 d2 : List String} (h : List.Perm d1 d2) (content : String) :
    denylisted (some d1) content = denylisted (some d2) content := by
  unfold denylisted denylistMatches
  rw [Bool.eq_iff_iff]
  simp only [List.any_eq_true]
  exact ⟨fun ⟨s, hs, hc⟩ => ⟨s, h.mem_iff.mp hs, hc⟩,
    fun ⟨s, hs, hc⟩ => ⟨s, h.mem_iff.mpr hs, hc⟩⟩

/-- The drawing loop is invariant under reordering of the denylist. -/
theorem processDanmus_perm {d1 d2 : List String} (h : List.Perm d1 d2) :
    ∀ (danmus : List Danmu) (canvas : Canvas) (ass : AssCreator) (count : Nat),
      processDanmus (some d1) canvas ass count danmus =
        processDanmus (some d2) canvas ass count danmus := by
  intro danmus
  induction danmus with
  | nil =>
    intro canvas ass count
    rfl
  | cons d rest ih =>
    intro canvas ass count
    by_cases hm : denylisted (some d2) d.content
    · simp only [processDanmus, denylisted_perm h, hm, if_true]
      exact ih canvas ass count
    · simp only [processDanmus, denylisted_perm h, hm, if_false]
      rcases hd : canvas.draw d with ⟨canvas2, od⟩
      cases od with
      | some drawable => exact ih canvas2 (ass.write drawable) (count + 1)
      | none => exact ih canvas2 ass count

/-- Claim C5: json_to_ass is deterministic.  In this pure embedding the
output is a function of the inputs; the one observable source of run to
run variation, the iteration order of the denylist hash set, does not
influence the result: any two iteration orders of the same denylist set
give an identical count and byte-identical document text. -/
theorem jsonToAss_deterministic (json : CommentsJson) (b : Option String) (title : String)
    {d1 d2 : List String} (cfg : CanvasConfig) (hperm : List.Perm d1 d2) :
    jsonToAss json b title (some d1) cfg = jsonToAss json b title (some d2) cfg := by
  unfold jsonToAss
  cases parseComments json.comments with
  | panics => rfl
  | error e => rfl
  | ok danmus =>
    dsimp only
    rw [processDanmus_perm hperm]

/-- Sample arguments: the defaults of cli/args.rs. -/
def sampleArgs : Args :=
  { input := "."
    width := 1280
    height := 720
    simplified_or_traditional := SimplifiedOrTraditional.Simplified
    merge_built_in_interactive := false
    merge_built_in := ""
    font := "黑体"
    font_size := 35
    lane_size := 35
    width_ratio := 6 / 5
    horizontal_gap := 20
    duration := 15
    float_percentage := 2 / 5
    alpha := 7 / 10
    force := false
    change_match := false
    denylist := none
    pause := false
    outline := 4 / 5
    bold := false
    time_offset := 0 }

/-- The configuration of the default arguments. -/
def sampleConfig : CanvasConfig := sampleArgs.canvas_config

/-- A comments JSON with no comments at all. -/
def emptyJson : CommentsJson :=
  { count := 0
    episode_id := none
    anime_id := none
    anime_title := none
    episode_title := none
    comments := [] }

/-- Claim C5 witness: two iteration orders of a concrete two-element
denylist set give identical outputs on a concrete run. -/
theorem jsonToAss_deterministic_witness :
    List.Perm (["a", "b"] : List String) ["b", "a"] ∧
    jsonToAss emptyJson none "t" (some ["a", "b"]) sampleConfig =
      jsonToAss emptyJson none "t" (some ["b", "a"]) sampleConfig :=
  ⟨by decide, jsonToAss_deterministic emptyJson none "t" sampleConfig (by decide)⟩

/-- The drawing loop with a denylist equals the loop with no denylist on
the prefiltered comment list. -/
theorem processDanmus_filter (dl : List String) :
    ∀ (danmus : List Danmu) (canvas : Canvas) (ass : AssCreator) (count : Nat),
      processDanmus (some dl) canvas ass count danmus =
        processDanmus none canvas ass count
          (danmus.filter (fun d => !denylistMatches dl d.content)) := by
  intro danmus
  induction danmus with
  | nil =>
    intro canvas ass count
    rfl
  | cons d rest ih =>
    intro canvas ass count
    by_cases hm : denylistMatches dl d.content
    · simp only [processDanmus, denylisted, hm, if_true, List.filter_cons, Bool.not_true]
      exact ih canvas ass count
    · simp only [processDanmus, denylisted, hm, if_false, List.filter_cons, Bool.not_false,
        Bool.false_eq_true]
      rcases hd : canvas.draw d with ⟨canvas2, od⟩
      cases od with
      | some drawable => exact ih canvas2 (ass.write drawable) (count + 1)
      | none => exact ih canvas2 ass count

/-- Claim C7: json_to_ass with a denylist behaves exactly as if the caller
had removed every comment whose text contains a denylist keyword before
handing the sorted list to the layout core: a matching comment contributes
no event line and no count, and every other comment reaches the core. -/
theorem jsonToAss_denylist_prefilter (json : CommentsJson) (b : Option String)
    (title : String) (dl : List String) (cfg : CanvasConfig) :
    jsonToAss json b title (some dl) cfg = jsonToAssPrefiltered json b title dl cfg := by
  unfold jsonToAss jsonToAssPrefiltered
  cases parseComments json.comments with
  | panics => rfl
  | error e => rfl
  | ok danmus =>
    dsimp only
    rw [processDanmus_filter]

/-- Claim C8: with an external built-in subtitle text, json_to_ass merges
only after every drawable of the conversion has been written: the finished
document is the document of the merge-free run followed by the external
event lines, so every merged line appears after every core event line. -/
theorem jsonToAss_merge_appends_after (json : CommentsJson) (title : String)
    (dl : Option (List String)) (cfg : CanvasConfig) (b : String) :
    jsonToAss json (some b) title dl cfg =
      ROut.map
        (fun r => (r.1, r.2 ++ String.join ((extractEventLines b).map (fun l => l ++ "\n"))))
        (jsonToAss json none title dl cfg) := by
  unfold jsonToAss
  cases parseComments json.comments with
  | panics => rfl
  | error e => rfl
  | ok danmus => rfl

/-- With a malformed comment somewhere in the list, the parsing loop never
succeeds. -/
theorem parseComments_not_ok (items : List CommentItem)
    (hbad : ∃ c ∈ items, ∃ e, Position.parse c.p = some (Except.error e)) :
    ∀ v, parseComments items ≠ ROut.ok v := by
  induction items with
  | nil => simp at hbad
  | cons c rest ih =>
    intro v
    obtain ⟨c0, hc0, e, he⟩ := hbad
    rcases List.mem_cons.mp hc0 with h | h
    · subst h
      simp only [parseComments, he]
      intro hcontra
      cases hcontra
    · cases hp : Position.parse c.p with
      | none =>
        simp only [parseComments, hp]
        intro hcontra
        cases hcontra
      | some r =>
        cases r with
        | error e2 =>
          simp only [parseComments, hp]
          intro hcontra
          cases hcontra
        | ok pos =>
          simp only [parseComments, hp]
          have ihr := ih ⟨c0, h, e, he⟩
          cases hrest : parseComments rest with
          | panics =>
            intro hcontra
            cases hcontra
          | error e2 =>
            intro hcontra
            cases hcontra
          | ok ds => exact absurd hrest (ihr ds)

/-- With a malformed comment in the list and no comment short enough to
panic, the parsing loop returns an error. -/
theorem parseComments_error (items : List CommentItem)
    (hsplit : ∀ c ∈ items, Position.parse c.p ≠ none)
    (hbad : ∃ c ∈ items, ∃ e, Position.parse c.p = some (Except.error e)) :
    ∃ e, parseComments items = ROut.error e := by
  induction items with
  | nil => simp at hbad
  | cons c rest ih =>
    obtain ⟨c0, hc0, e, he⟩ := hbad
    rcases List.mem_cons.mp hc0 with h | h
    · subst h
      exact ⟨e, by simp only [parseComments, he]⟩
    · cases hp : Position.parse c.p with
      | none => exact absurd hp (hsplit c (List.mem_cons_self c rest))
      | some r =>
        cases r with
        | error e2 => exact ⟨e2, by simp only [parseComments, hp]⟩
        | ok pos =>
          obtain ⟨e3, he3⟩ := ih (fun c2 hc2 => hsplit c2 (List.mem_cons_of_mem c hc2))
            ⟨c0, h, e, he⟩
          exact ⟨e3, by simp only [parseComments, hp, he3]⟩

/-- Claim C2 (amended): a comments JSON containing a comment whose position
has an unparseable timestamp, an unrecognized display-mode code or an
unparseable color makes json_to_ass fail for the whole file: it never
returns a document (no comment is recovered or skipped), and — provided
every position string splits into at least 4 comma fields, so that no
out-of-bounds panic preempts the error — it returns an error. -/
theorem jsonToAss_fatal_on_malformed (json : CommentsJson) (b : Option String)
    (title : String) (dl : Option (List String)) (cfg : CanvasConfig)
    (hbad : ∃ c ∈ json.comments, ∃ e, Position.parse c.p = some (Except.error e)) :
    (∀ v, jsonToAss json b title dl cfg ≠ ROut.ok v) ∧
    ((∀ c ∈ json.comments, 4 ≤ (commaFields c.p).length) →
      ∃ e, jsonToAss json b title dl cfg = ROut.error e) := by
  constructor
  · intro v
    unfold jsonToAss
    cases hres : parseComments json.comments with
    | panics =>
      intro hcontra
      cases hcontra
    | error e =>
      intro hcontra
      cases hcontra
    | ok danmus => exact absurd hres (parseComments_not_ok json.comments hbad danmus)
  · intro hlen
    have hsplit : ∀ c ∈ json.comments, Position.parse c.p ≠ none := by
      intro c hc hn
      have hlt := (position_parse_none_iff c.p).mp hn
      have hge := hlen c hc
      omega
    obtain ⟨e, he⟩ := parseComments_error json.comments hsplit hbad
    exact ⟨e, by unfold jsonToAss; rw [he]⟩

/-- A comments JSON whose single comment has an unparseable color field
but a well-formed field count. -/
def badColorJson : CommentsJson :=
  { count := 1
    episode_id := none
    anime_id := none
    anime_title := none
    episode_title := none
    comments := [{ cid := 1, p := "0.0,1,xyz,u", m := "a" }] }

/-- Claim C2 witness: on the concrete JSON with one bad-color comment,
json_to_ass returns an error and never a document. -/
theorem jsonToAss_fatal_on_malformed_witness :
    (∃ c ∈ badColorJson.comments, ∃ e, Position.parse c.p = some (Except.error e)) ∧
    (∀ c ∈ badColorJson.comments, 4 ≤ (commaFields c.p).length) ∧
    (∀ v, jsonToAss badColorJson none "test" none sampleConfig ≠ ROut.ok v) ∧
    (∃ e, jsonToAss badColorJson none "test" none sampleConfig = ROut.error e) := by
  have hbad : ∃ c ∈ badColorJson.comments, ∃ e, Position.parse c.p = some (Except.error e) :=
    ⟨{ cid := 1, p := "0.0,1,xyz,u", m := "a" }, by decide,
      "invalid digit found in string", by decide⟩
  have h := jsonToAss_fatal_on_malformed badColorJson none "test" none sampleConfig hbad
  exact ⟨hbad, by decide, h.1, h.2 (by decide)⟩

/-- A comments JSON containing a comment with an unrecognized mode code
(the claim hypothesis) preceded by a comment whose position is too short,
which panics first. -/
def panicFirstJson : CommentsJson :=
  { count := 2
    episode_id := none
    anime_id := none
    anime_title := none
    episode_title := none
    comments :=
      [{ cid := 1, p := "0.0,1", m := "a" },
       { cid := 2, p := "0.0,9,16777215,u", m := "b" }] }

/-- Claim C2 counterexample: this JSON contains a comment with an
unrecognized display-mode code, yet json_to_ass does not return an error:
it panics on the earlier short position string, so the claim as stated
(json_to_ass returns an error for every such JSON) fails here. -/
theorem jsonToAss_malformed_counterexample :
    (∃ c ∈ panicFirstJson.comments, ∃ e, Position.parse c.p = some (Except.error e)) ∧
    jsonToAss panicFirstJson none "test" none sampleConfig = ROut.panics ∧
    ∀ e, jsonToAss panicFirstJson none "test" none sampleConfig ≠ ROut.error e := by
  have hpan : jsonToAss panicFirstJson none "test" none sampleConfig = ROut.panics := by
    unfold jsonToAss
    have : parseComments panicFirstJson.comments = ROut.panics := by
      simp only [panicFirstJson, parseComments]
      have : Position.parse "0.0,1" = none := by decide
      rw [this]
    rw [this]
  refine ⟨?_, hpan, ?_⟩
  · refine ⟨{ cid := 2, p := "0.0,9,16777215,u", m := "b" }, by decide, "不支持的弹幕类型 9", ?_⟩
    decide
  · intro e
    rw [hpan]
    intro hcontra
    cases hcontra

/-- Claim C10 witness: the white color value 16777215 splits into the
triple (255, 255, 255). -/
theorem parse_color_decimal_witness :
    ("16777215".data ≠ [] ∧ "16777215".data.all Char.isDigit = true ∧
      digitsToNat "16777215".data = 16777215 ∧ 16777215 ≤ 2147483647) ∧
    Position.parse_color "16777215" = Except.ok (255, 255, 255) := by
  refine ⟨⟨by decide, by decide, by decide, by decide⟩, ?_⟩
  have h := (parse_color_decimal "16777215".data 16777215 (by decide) (by decide)
    (by decide) (by decide)).1
  have hv : ((16777215 / 65536 % 256 : Nat), (16777215 / 256 % 256 : Nat),
      (16777215 % 256 : Nat)) = ((255 : Nat), (255 : Nat), (255 : Nat)) := by decide
  rw [hv] at h
  exact h

end Ddp2ass
